import Mathlib

/-!
# Verification of the chess-learning session/engine orchestration core

Shallow embedding of the session-manager core of the repository
(`src/main.py`, `src/chess_game.py`).  Board representation, legal-move
generation and SAN conversion are delegated to an external Rules Engine
collaborator (the `python-chess` library in the source); here it is an
abstract structure `RulesEngine` whose operations are the ones the core
consumes, together with the two contract facts of `python-chess` the
proofs need:

* `Board.san(move)` succeeds on a move that is legal in the current
  position (`san_legal`);
* after `Board.push(move)` the from-square of `move` is vacated, so
  `Board.san(move)` called on the *resulting* position fails its
  internal assertion (`san() and lan() expect move to be legal or null`)
  and raises `AssertionError` (`san_after_push`).

A python-chess `Board` carries its own move stack and `pop()` restores
the previous position, so a board is embedded as the list of moves
played from the start position; the current position is its replay.

Nondeterministic external inputs are explicit parameters: the engine
process's reply to one `engine.play` call is an `EngResp`, and the index
drawn by `random.choice` is a `Nat` reduced modulo the list length.
-/

namespace ChessLearning

/-- Outcome of one `engine.play(...)` call as observed by the caller:
a result carrying a move, a result carrying no move (`result is None`
or `result.move is None`), or a raised engine exception. -/
inductive EngResp (M : Type) where
  | move (m : M)
  | noMove
  | err
deriving DecidableEq, Repr

/-- A command the core sends to the engine process outside of search
requests (only strength reconfiguration occurs in the source). -/
inductive EngineCmd where
  | configureSkill (n : Int)
deriving DecidableEq, Repr

/-- Outcome of one Flask handler invocation: a JSON 200 response, a JSON
error response (`jsonify({'error': ...}), 400`), or an uncaught Python
exception escaping the handler (HTTP 500). -/
inductive HandlerResult (α : Type) where
  | ok (a : α)
  | httpError (msg : String)
  | raised
deriving DecidableEq, Repr

/-- The state fields common to every JSON response of `src/main.py`
(fen, turn, game-over flag, move history).  Check/checkmate/stalemate
booleans and per-move echo fields are omitted: no claim mentions them. -/
structure ApiState where
  fen : String
  turnWhite : Bool
  isGameOver : Bool
  moveHistory : List String
deriving DecidableEq, Repr

/-- The Rules Engine collaborator (python-chess in the source): the
operations the core consumes, plus the two facts about `Board.san`
documented in the file header.  `P` is the type of positions, `M` the
type of moves. -/
structure RulesEngine (P M : Type) where
  startPos : P
  legalMoves : P → List M
  push : P → M → P
  isGameOver : P → Bool
  fen : P → String
  turnWhite : P → Bool
  san : P → M → Option String
  san_legal : ∀ p m, m ∈ legalMoves p → (san p m).isSome = true
  san_after_push : ∀ p m, m ∈ legalMoves p → san (push p m) m = none

/-- The position reached by replaying a move stack from the start
position (a python-chess `Board` is its move stack plus replay). -/
def boardPos {P M : Type} (re : RulesEngine P M) (stack : List M) : P :=
  stack.foldl re.push re.startPos

/-- Embeds `random.choice(l) if l else None`: the draw is made explicit
by an index `k`, reduced modulo the length. -/
def randomChoice {M : Type} (l : List M) (k : Nat) : Option M :=
  if l.isEmpty then none else l.get? (k % l.length)

/-! ## A concrete Rules Engine instance

A small alternating game used to instantiate the embedding in witnesses
and counterexamples: positions are move stacks, the moves legal at an
even-depth position are `0` and `2`, at an odd-depth position `1` and
`3`, and the game ends after six plies.  A move legal now is never legal
again immediately after being played (the parities disagree), which is
exactly the python-chess situation `san_after_push` describes. -/

/-- Legal moves of the toy game: parity of the stack length selects the
move set; the game is over after six plies. -/
def toyLegal (p : List Nat) : List Nat :=
  if 6 ≤ p.length then [] else if p.length % 2 = 0 then [0, 2] else [1, 3]

/-- SAN of the toy game: defined exactly on moves legal in the given
position, mirroring the python-chess assertion. -/
def toySan (p : List Nat) (m : Nat) : Option String :=
  if m ∈ toyLegal p then some (toString m) else none

theorem toySan_legal (p : List Nat) (m : Nat) (h : m ∈ toyLegal p) :
    (toySan p m).isSome = true := by
  simp [toySan, h]

theorem toySan_after_push (p : List Nat) (m : Nat) (h : m ∈ toyLegal p) :
    toySan (p ++ [m]) m = none := by
  have hlen : p.length < 6 := by
    by_contra hge
    simp [toyLegal, Nat.le_of_not_lt hge] at h
  have hq : m ∉ toyLegal (p ++ [m]) := by
    simp only [toyLegal, List.length_append, List.length_cons, List.length_nil] at h ⊢
    rw [if_neg (by omega)] at h
    by_cases h6 : 6 ≤ p.length + 1
    · rw [if_pos h6]
      simp
    · rw [if_neg h6]
      by_cases hp : p.length % 2 = 0
      · rw [if_pos hp] at h
        rw [if_neg (by omega)]
        simp at h ⊢
        omega
      · rw [if_neg hp] at h
        rw [if_pos (by omega)]
        simp at h ⊢
        omega
  simp [toySan, hq]

/-- The toy Rules Engine instance. -/
def toyRules : RulesEngine (List Nat) Nat where
  startPos := []
  legalMoves := toyLegal
  push p m := p ++ [m]
  isGameOver p := decide (6 ≤ p.length)
  fen p := toString p.length
  turnWhite p := p.length % 2 = 0
  san := toySan
  san_legal := toySan_legal
  san_after_push := toySan_after_push

/-! ## `src/chess_game.py`: the `ChessGame` class -/

/-- State of `ChessGame` (`src/chess_game.py`, `__init__`, lines 14-46).
The board is its move stack (replayed through the Rules Engine);
`hasEngine` records whether `SimpleEngine.popen_uci` succeeded
(`self.engine is not None`); `move_cache` is `self._move_cache`, a
fen-keyed dictionary embedded as an association list whose most recent
binding wins. -/
structure ChessGame (P M : Type) where
  stack : List M
  mode : String
  hasEngine : Bool
  difficulty_level : Int
  show_hints : Bool
  current_evaluation : String
  last_move : Option M
  move_cache : List (String × M)
  move_history : List String
deriving DecidableEq, Repr

/-- A fresh `ChessGame` (`__init__`): start position, difficulty 3,
empty cache and history. -/
def ChessGame.init {P M : Type} (mode : String) (hasEngine : Bool) : ChessGame P M :=
  ⟨[], mode, hasEngine, 3, true, "0.0", none, [], []⟩

/-- Dictionary lookup in the move cache (`board_fen in self._move_cache`
followed by `self._move_cache[board_fen]`). -/
def cacheLookup {M : Type} (c : List (String × M)) (k : String) : Option M :=
  match c.find? (fun e => e.1 == k) with
  | some e => some e.2
  | none => none

/-- What one call to `ChessGame.get_engine_move` produced: the returned
move, the cache afterwards, whether the underlying engine process was
asked to search (`self.engine.play` executed), and whether the returned
move came from the `get_random_move` fallback. -/
structure EngineMoveOut (M : Type) where
  move : Option M
  cache : List (String × M)
  engineCalled : Bool
  usedRandom : Bool
deriving DecidableEq, Repr

/-- Embeds `ChessGame.get_random_move` (`src/chess_game.py`, lines
87-94): `random.choice(list(board.legal_moves))`, or `None` when no
legal move exists.  The random draw is the explicit index `k`. -/
def ChessGame.get_random_move {P M : Type} (re : RulesEngine P M) (g : ChessGame P M)
    (k : Nat) : Option M :=
  randomChoice (re.legalMoves (boardPos re g.stack)) k

/-- Embeds `ChessGame.get_engine_move` (`src/chess_game.py`, lines 48-85).
Control flow of the source: terminal position → `None`; cache hit on
`board.fen()` → cached move, engine untouched; no engine → random
fallback; engine reply carrying a move → cached and returned only if
legal, otherwise `StockfishError` is raised and caught → random
fallback; reply without a move → `StockfishError` → random fallback;
`EngineTerminatedError` → random fallback.  The fallback never writes
the cache. -/
def ChessGame.get_engine_move {P M : Type} [DecidableEq M] (re : RulesEngine P M)
    (g : ChessGame P M) (resp : EngResp M) (k : Nat) : EngineMoveOut M :=
  if re.isGameOver (boardPos re g.stack) then
    ⟨none, g.move_cache, false, false⟩
  else
    match cacheLookup g.move_cache (re.fen (boardPos re g.stack)) with
    | some m => ⟨some m, g.move_cache, false, false⟩
    | none =>
      if !g.hasEngine then
        ⟨g.get_random_move re k, g.move_cache, false, true⟩
      else
        match resp with
        | .move m =>
          if m ∈ re.legalMoves (boardPos re g.stack) then
            ⟨some m, (re.fen (boardPos re g.stack), m) :: g.move_cache, true, false⟩
          else
            ⟨g.get_random_move re k, g.move_cache, true, true⟩
        | .noMove => ⟨g.get_random_move re k, g.move_cache, true, true⟩
        | .err => ⟨g.get_random_move re k, g.move_cache, true, true⟩

/-- Embeds `ChessGame.make_move` (`src/chess_game.py`, lines 199-214): legality
check against `board.legal_moves`, SAN computed *before* the push, push,
append.  The second component is `some true` / `some false` for the
returned booleans and `none` for a raised exception (unreachable while
the Rules Engine honours `san_legal`); the first component is the state
afterwards — unchanged except on the success path. -/
def ChessGame.make_move {P M : Type} [DecidableEq M] (re : RulesEngine P M)
    (g : ChessGame P M) (m : M) : ChessGame P M × Option Bool :=
  if m ∈ re.legalMoves (boardPos re g.stack) then
    match re.san (boardPos re g.stack) m with
    | some san_move =>
      ({ g with stack := g.stack ++ [m], last_move := some m,
                move_history := g.move_history ++ [san_move] }, some true)
    | none => (g, none)
  else (g, some false)

/-- Embeds `ChessGame.undo_move` (`src/chess_game.py`, lines 216-227): pop the
board if its move stack is nonempty, popping the SAN history alongside
when it is nonempty; report whether a move was undone. -/
def ChessGame.undo_move {P M : Type} (g : ChessGame P M) : ChessGame P M × Bool :=
  if g.stack.isEmpty then (g, false)
  else
    ({ g with stack := g.stack.dropLast,
              move_history := if g.move_history.isEmpty then g.move_history
                              else g.move_history.dropLast }, true)

/-- The skill-level table of `ChessGame.set_difficulty`
(`src/chess_game.py`, lines 186-191): `{1: 0, 2: 5, 3: 10, 4: 20}` with
dictionary default `10`. -/
def skillLevelFor (level : Int) : Int :=
  if level = 1 then 0
  else if level = 2 then 5
  else if level = 3 then 10
  else if level = 4 then 20
  else 10

/-- Embeds `ChessGame.set_difficulty` (`src/chess_game.py`, lines 176-197):
stores `level` as given (no clamping), returns early without engine
commands when no engine is bound, otherwise issues one skill
configuration command; a `chess.engine.EngineError` from it (`cfgFails`)
is caught and only logged, leaving state and outcome identical. -/
def ChessGame.set_difficulty {P M : Type} (g : ChessGame P M) (level : Int)
    (cfgFails : Bool) : ChessGame P M × List EngineCmd :=
  let g1 := { g with difficulty_level := level }
  if !g.hasEngine then (g1, [])
  else
    let cmds := [EngineCmd.configureSkill (skillLevelFor level)]
    if cfgFails then (g1, cmds) else (g1, cmds)

/-! ## `src/main.py`: the Flask session manager -/

/-- One entry of `active_games` (`src/main.py`, lines 167-175): board
(as its move stack), mode string, colour, difficulty, hint flag, SAN
history and the last hint stored by `/api/hint`
(`from`, `to`, `explanation`). -/
structure WebSession (P M : Type) where
  stack : List M
  mode : String
  humanIsWhite : Bool
  difficulty : Int
  showHints : Bool
  moveHistory : List String
  lastEngineHint : Option (String × String × String)
deriving DecidableEq, Repr

/-- The session stored by `/api/new_game` before any engine move
(`src/main.py`, lines 167-175): start position, difficulty 3, hints on,
empty history, no hint. -/
def freshWebSession {P M : Type} (mode : String) (humanIsWhite : Bool) : WebSession P M :=
  ⟨[], mode, humanIsWhite, 3, true, [], none⟩

/-- The response fields shared by the handlers, read off a session. -/
def stateOf {P M : Type} (re : RulesEngine P M) (g : WebSession P M) : ApiState :=
  ⟨re.fen (boardPos re g.stack), re.turnWhite (boardPos re g.stack),
   re.isGameOver (boardPos re g.stack), g.moveHistory⟩

/-- Embeds `ChessGameManager.get_engine_move` (`src/main.py`, lines 51-71): no
cache; without an engine, fall back to `get_random_move`; with one,
return the replied move when the reply carries one, otherwise (reply
without move, or any exception) fall back to a random legal move.  The
`difficulty` argument only scales the search time limit and does not
affect the result shape. -/
def mgrGetEngineMove {P M : Type} (re : RulesEngine P M) (hasEngine : Bool)
    (resp : EngResp M) (p : P) (k : Nat) : Option M :=
  if !hasEngine then randomChoice (re.legalMoves p) k
  else
    match resp with
    | .move m => some m
    | .noMove => randomChoice (re.legalMoves p) k
    | .err => randomChoice (re.legalMoves p) k

/-- The `/api/new_game` handler (`src/main.py`, lines 158-193).  The
session is inserted into `active_games` unconditionally and with no
validation of the mode string.  When the human is Black and the mode is
not `Self-Practice`, an engine move is requested and pushed, and then —
in the source's order — `board.san(engine_move)` is evaluated on the
board *after* the push (line 182): the returned first component is the
session as stored in `active_games` when the handler finishes, the
second the HTTP outcome (`raised` when `san` fails its assertion). -/
def web_new_game {P M : Type} (re : RulesEngine P M) (mode : String)
    (colorWhite : Bool) (hasEngine : Bool) (resp : EngResp M) (k : Nat) :
    WebSession P M × HandlerResult ApiState :=
  let g0 : WebSession P M := freshWebSession mode colorWhite
  if !colorWhite && mode != "Self-Practice" then
    match mgrGetEngineMove re hasEngine resp (boardPos re g0.stack) k with
    | some m =>
      let g1 := { g0 with stack := g0.stack ++ [m] }
      match re.san (boardPos re g1.stack) m with
      | some s =>
        let g2 := { g1 with moveHistory := g1.moveHistory ++ [s] }
        (g2, .ok (stateOf re g2))
      | none => (g1, .raised)
    | none => (g0, .ok (stateOf re g0))
  else (g0, .ok (stateOf re g0))

/-- The `/api/move` handler (`src/main.py`, lines 195-284), taken from
the point where the move object exists (square parsing and the
automatic queen promotion construct it from the request).  Illegal move
→ 400 error, session untouched.  Legal move → SAN before push, push,
append; then, in `Play` mode with the game not over and the side to
move not the human's, one engine reply is requested and applied the
same way (the engine reply is *not* validated: an illegal reply makes
`board.san` raise with the human's move already applied).  First
component: the session as stored when the handler finishes. -/
def web_make_move {P M : Type} [DecidableEq M] (re : RulesEngine P M)
    (g : WebSession P M) (m : M) (hasEngine : Bool) (resp : EngResp M) (k : Nat) :
    WebSession P M × HandlerResult ApiState :=
  if m ∈ re.legalMoves (boardPos re g.stack) then
    match re.san (boardPos re g.stack) m with
    | none => (g, .raised)
    | some s =>
      let g1 := { g with stack := g.stack ++ [m], moveHistory := g.moveHistory ++ [s] }
      let p1 := boardPos re g1.stack
      if g1.mode == "Play" && !re.isGameOver p1 then
        let humanTurn := (g1.humanIsWhite && re.turnWhite p1)
          || (!g1.humanIsWhite && !re.turnWhite p1)
        if !humanTurn then
          match mgrGetEngineMove re hasEngine resp p1 k with
          | some em =>
            match re.san p1 em with
            | none => (g1, .raised)
            | some es =>
              let g2 := { g1 with stack := g1.stack ++ [em],
                                  moveHistory := g1.moveHistory ++ [es] }
              (g2, .ok (stateOf re g2))
          | none => (g1, .ok (stateOf re g1))
        else (g1, .ok (stateOf re g1))
      else (g1, .ok (stateOf re g1))
  else (g, .httpError "Illegal move")

/-- One `board.pop()` block of the `/api/undo` handler (`src/main.py`,
lines 344-347 and 350-353 and 356-359): pop the board when its stack is
nonempty, popping the SAN history alongside when it is nonempty. -/
def popOnce {P M : Type} (g : WebSession P M) : WebSession P M :=
  if g.stack.isEmpty then g
  else
    { g with stack := g.stack.dropLast,
             moveHistory := if g.moveHistory.isEmpty then g.moveHistory
                            else g.moveHistory.dropLast }

/-- The `/api/undo` handler (`src/main.py`, lines 330-369): two pop
blocks in `Play` mode, one otherwise, then an unconditional 200
response — no branch can produce an error once the session was found. -/
def web_undo {P M : Type} (re : RulesEngine P M) (g : WebSession P M) :
    WebSession P M × HandlerResult ApiState :=
  let g1 := if g.mode == "Play" then popOnce (popOnce g) else popOnce g
  (g1, .ok (stateOf re g1))

/-- The `/api/set_difficulty` handler (`src/main.py`, lines 371-387):
clamp to `[1, 4]` via `max(1, min(4, int(difficulty)))`, store, reply
with the clamped value.  No engine command of any kind is issued — the
middle component is the (always empty) list of commands sent to the
engine process by this handler. -/
def web_set_difficulty {P M : Type} (g : WebSession P M) (d : Int) :
    WebSession P M × List EngineCmd × HandlerResult Int :=
  let d1 := max 1 (min 4 d)
  ({ g with difficulty := d1 }, [], .ok d1)

/-! ## Theorems -/

/-- C10: in a terminal position `ChessGame.get_engine_move` returns
`None` immediately: the cache is not consulted or changed, the engine
process is not called, and the random fallback is not used. -/
theorem C10_gameOver_engine_move_none {P M : Type} [DecidableEq M]
    (re : RulesEngine P M) (g : ChessGame P M) (resp : EngResp M) (k : Nat)
    (h : re.isGameOver (boardPos re g.stack) = true) :
    ChessGame.get_engine_move re g resp k = ⟨none, g.move_cache, false, false⟩ := by
  unfold ChessGame.get_engine_move
  rw [if_pos h]

/-- Witness for C10 at a concrete terminal toy position (six plies
played, so the toy game is over). -/
theorem C10_gameOver_engine_move_none_witness :
    ChessGame.get_engine_move toyRules
      (⟨[0, 1, 0, 1, 0, 1], "Play", true, 3, true, "0.0", none, [], []⟩ :
        ChessGame (List Nat) Nat) .err 0 =
      ⟨none, [], false, false⟩ :=
  C10_gameOver_engine_move_none toyRules _ .err 0 (by decide)

/-- C4: one `ChessGame.get_engine_move` call either leaves the move
cache unchanged — in particular whenever the random fallback supplied
the answer — or extends it with exactly one entry, keyed by the current
position's fen, whose move is the engine's reply verified legal in that
position before insertion. -/
theorem C4_cache_only_verified_moves {P M : Type} [DecidableEq M]
    (re : RulesEngine P M) (g : ChessGame P M) (resp : EngResp M) (k : Nat) :
    ((ChessGame.get_engine_move re g resp k).usedRandom = true →
      (ChessGame.get_engine_move re g resp k).cache = g.move_cache) ∧
    ((ChessGame.get_engine_move re g resp k).cache = g.move_cache ∨
      ∃ m, resp = .move m ∧ m ∈ re.legalMoves (boardPos re g.stack) ∧
        (ChessGame.get_engine_move re g resp k).cache =
          (re.fen (boardPos re g.stack), m) :: g.move_cache ∧
        (ChessGame.get_engine_move re g resp k).usedRandom = false ∧
        (ChessGame.get_engine_move re g resp k).move = some m) := by
  unfold ChessGame.get_engine_move
  by_cases hov : re.isGameOver (boardPos re g.stack) = true
  · rw [if_pos hov]
    exact ⟨fun _ => rfl, Or.inl rfl⟩
  · rw [if_neg hov]
    cases hc : cacheLookup g.move_cache (re.fen (boardPos re g.stack)) with
    | some m =>
      exact ⟨fun _ => rfl, Or.inl rfl⟩
    | none =>
      cases heng : g.hasEngine with
      | false => exact ⟨fun _ => rfl, Or.inl rfl⟩
      | true =>
        cases resp with
        | move m =>
          by_cases hm : m ∈ re.legalMoves (boardPos re g.stack)
          · simp only [if_pos hm]
            exact ⟨fun h => Bool.noConfusion h, Or.inr ⟨m, rfl, hm, rfl, rfl, rfl⟩⟩
          · simp only [if_neg hm]
            exact ⟨fun _ => rfl, Or.inl rfl⟩
        | noMove => exact ⟨fun _ => rfl, Or.inl rfl⟩
        | err => exact ⟨fun _ => rfl, Or.inl rfl⟩

/-- C2: a move outside the Rules Engine's legal-move set for the
session's current position makes the `/api/move` handler answer the
400 error `Illegal move` and leaves the stored session — board stack,
move history, difficulty, hint flag and last hint — exactly as it
was. -/
theorem C2_illegal_move_rejected_unchanged {P M : Type} [DecidableEq M]
    (re : RulesEngine P M) (g : WebSession P M) (m : M) (hasEngine : Bool)
    (resp : EngResp M) (k : Nat)
    (h : m ∉ re.legalMoves (boardPos re g.stack)) :
    web_make_move re g m hasEngine resp k = (g, .httpError "Illegal move") := by
  unfold web_make_move
  rw [if_neg h]

/-- Witness for C2: on the toy start position the move `5` is illegal
and the handler rejects it without touching the session. -/
theorem C2_illegal_move_rejected_unchanged_witness :
    web_make_move toyRules
      (⟨[], "Play", true, 3, true, [], none⟩ : WebSession (List Nat) Nat)
      5 true .err 0 =
      (⟨[], "Play", true, 3, true, [], none⟩, .httpError "Illegal move") :=
  C2_illegal_move_rejected_unchanged toyRules _ 5 true .err 0 (by decide)

/-- C1 (code bug): creating a `Play` session with the human playing
Black does request and push one engine move for White, but the handler
then evaluates `board.san(engine_move)` on the board *after* the push
(`src/main.py` line 182), where the move's from-square is empty, so the
SAN conversion fails and the request raises instead of returning the
promised state; the stored session is left with one move on the board
and an empty move history. -/
theorem C1_new_game_black_raises :
    web_new_game toyRules "Play" false false .err 0 =
      ((⟨[0], "Play", false, 3, true, [], none⟩ : WebSession (List Nat) Nat),
        .raised) := by
  decide

/-- C5 (refuted): the `/api/new_game` handler performs no validation of
the mode string: an unrecognized mode such as `Bogus` is accepted, a
session carrying that mode is stored, and the handler answers 200 —
there is no `InvalidMode` failure anywhere in the source. -/
theorem C5_counterexample_bogus_mode_accepted :
    web_new_game toyRules "Bogus" true true (.move 0) 0 =
      ((⟨[], "Bogus", true, 3, true, [], none⟩ : WebSession (List Nat) Nat),
        .ok ⟨"0", true, false, []⟩) := by
  decide

/-- C5 (amended): `createSession` accepts every mode string — the
stored session always carries the requested mode, and with the human
playing White the handler returns 200 with the fresh session whatever
the mode is. -/
theorem C5_amended_no_mode_validation {P M : Type} (re : RulesEngine P M)
    (mode : String) (colorWhite hasEngine : Bool) (resp : EngResp M) (k : Nat) :
    (web_new_game re mode colorWhite hasEngine resp k).1.mode = mode ∧
    (colorWhite = true →
      web_new_game re mode colorWhite hasEngine resp k =
        (freshWebSession mode true, .ok (stateOf re (freshWebSession mode true)))) := by
  constructor
  · unfold web_new_game
    by_cases hcw : (!colorWhite && (mode != "Self-Practice")) = true
    · rw [if_pos hcw]
      dsimp only
      split
      · split
        · rfl
        · rfl
      · rfl
    · rw [if_neg hcw]
      rfl
  · intro hcw
    subst hcw
    rfl

/-- Witness for the amended C5 at the concrete unrecognized mode
`Nonsense`. -/
theorem C5_amended_no_mode_validation_witness :
    web_new_game toyRules "Nonsense" true false .err 0 =
      (freshWebSession "Nonsense" true,
        .ok (stateOf toyRules (freshWebSession "Nonsense" true))) :=
  (C5_amended_no_mode_validation toyRules "Nonsense" true false .err 0).2 rfl

/-- C7 (refuted as stated): when the engine errors on the first call,
nothing is cached, and a second call on the identical position consults
the engine process again — two underlying engine calls, and no
short-circuit on the second. -/
theorem C7_counterexample_two_engine_calls :
    (ChessGame.get_engine_move toyRules
      (⟨[], "Play", true, 3, true, "0.0", none, [], []⟩ : ChessGame (List Nat) Nat)
      .err 0).engineCalled = true ∧
    (ChessGame.get_engine_move toyRules
      { (⟨[], "Play", true, 3, true, "0.0", none, [], []⟩ : ChessGame (List Nat) Nat) with
        move_cache := (ChessGame.get_engine_move toyRules
          (⟨[], "Play", true, 3, true, "0.0", none, [], []⟩ : ChessGame (List Nat) Nat)
          .err 0).cache }
      .err 1).engineCalled = true := by
  decide

/-- C7 (amended): when the first call on a non-terminal, cache-missing
position obtains a legal move from the engine, the move is cached, and
a second call on the identical position is a pure cache hit: the engine
is not called again, the same move is returned, and the cache is
unchanged. -/
theorem C7_second_call_cache_hit {P M : Type} [DecidableEq M]
    (re : RulesEngine P M) (g : ChessGame P M) (m : M) (resp2 : EngResp M)
    (k1 k2 : Nat)
    (hov : re.isGameOver (boardPos re g.stack) = false)
    (hmiss : cacheLookup g.move_cache (re.fen (boardPos re g.stack)) = none)
    (heng : g.hasEngine = true)
    (hm : m ∈ re.legalMoves (boardPos re g.stack)) :
    (ChessGame.get_engine_move re g (.move m) k1).engineCalled = true ∧
    (ChessGame.get_engine_move re g (.move m) k1).move = some m ∧
    (ChessGame.get_engine_move re
        { g with move_cache := (ChessGame.get_engine_move re g (.move m) k1).cache }
        resp2 k2).engineCalled = false ∧
    (ChessGame.get_engine_move re
        { g with move_cache := (ChessGame.get_engine_move re g (.move m) k1).cache }
        resp2 k2).move = some m ∧
    (ChessGame.get_engine_move re
        { g with move_cache := (ChessGame.get_engine_move re g (.move m) k1).cache }
        resp2 k2).cache = (ChessGame.get_engine_move re g (.move m) k1).cache := by
  have hov' : ¬ re.isGameOver (boardPos re g.stack) = true := by simp [hov]
  have h1 : ChessGame.get_engine_move re g (.move m) k1 =
      ⟨some m, (re.fen (boardPos re g.stack), m) :: g.move_cache, true, false⟩ := by
    unfold ChessGame.get_engine_move
    rw [if_neg hov', hmiss, heng]
    simp only [if_pos hm]
    rfl
  have h2 : ChessGame.get_engine_move re
      { g with move_cache := (re.fen (boardPos re g.stack), m) :: g.move_cache }
      resp2 k2 =
      ⟨some m, (re.fen (boardPos re g.stack), m) :: g.move_cache, false, false⟩ := by
    unfold ChessGame.get_engine_move
    rw [if_neg hov']
    have hl : cacheLookup ((re.fen (boardPos re g.stack), m) :: g.move_cache)
        (re.fen (boardPos re g.stack)) = some m := by
      simp [cacheLookup, List.find?]
    rw [hl]
  refine ⟨?_, ?_, ?_, ?_, ?_⟩ <;> simp [h1, h2]

/-- Witness for the amended C7 at the concrete toy start position. -/
theorem C7_second_call_cache_hit_witness :
    (ChessGame.get_engine_move toyRules
      (⟨[], "Play", true, 3, true, "0.0", none, [], []⟩ : ChessGame (List Nat) Nat)
      (.move 0) 0).engineCalled = true ∧
    (ChessGame.get_engine_move toyRules
      (⟨[], "Play", true, 3, true, "0.0", none, [], []⟩ : ChessGame (List Nat) Nat)
      (.move 0) 0).move = some 0 ∧
    (ChessGame.get_engine_move toyRules
      { (⟨[], "Play", true, 3, true, "0.0", none, [], []⟩ : ChessGame (List Nat) Nat) with
        move_cache := (ChessGame.get_engine_move toyRules
          (⟨[], "Play", true, 3, true, "0.0", none, [], []⟩ : ChessGame (List Nat) Nat)
          (.move 0) 0).cache }
      .err 1).engineCalled = false ∧
    (ChessGame.get_engine_move toyRules
      { (⟨[], "Play", true, 3, true, "0.0", none, [], []⟩ : ChessGame (List Nat) Nat) with
        move_cache := (ChessGame.get_engine_move toyRules
          (⟨[], "Play", true, 3, true, "0.0", none, [], []⟩ : ChessGame (List Nat) Nat)
          (.move 0) 0).cache }
      .err 1).move = some 0 ∧
    (ChessGame.get_engine_move toyRules
      { (⟨[], "Play", true, 3, true, "0.0", none, [], []⟩ : ChessGame (List Nat) Nat) with
        move_cache := (ChessGame.get_engine_move toyRules
          (⟨[], "Play", true, 3, true, "0.0", none, [], []⟩ : ChessGame (List Nat) Nat)
          (.move 0) 0).cache }
      .err 1).cache = (ChessGame.get_engine_move toyRules
          (⟨[], "Play", true, 3, true, "0.0", none, [], []⟩ : ChessGame (List Nat) Nat)
          (.move 0) 0).cache :=
  C7_second_call_cache_hit toyRules _ 0 .err 0 1 (by decide) (by decide) (by decide)
    (by decide)

/-- C8 (refuted as stated): a stored hint survives a successfully
applied move — the `/api/move` handler never clears
`last_engine_hint`. -/
theorem C8_counterexample_hint_survives_move :
    (web_make_move toyRules
      (⟨[], "Practice", true, 3, true, [], some ("e2", "e4", "hint")⟩ :
        WebSession (List Nat) Nat) 0 true .err 0).1.lastEngineHint =
      some ("e2", "e4", "hint") ∧
    (web_make_move toyRules
      (⟨[], "Practice", true, 3, true, [], some ("e2", "e4", "hint")⟩ :
        WebSession (List Nat) Nat) 0 true .err 0).2 =
      .ok ⟨"1", false, false, ["0"]⟩ := by
  decide

/-- C8 (amended): the `/api/move` handler never touches the stored
hint: after any call — rejected, applied, or applied with an engine
reply — the session's `last_engine_hint` is exactly what it was
before.  Only `/api/hint` writes it, and nothing ever clears it. -/
theorem C8_amended_hint_persists {P M : Type} [DecidableEq M]
    (re : RulesEngine P M) (g : WebSession P M) (m : M) (hasEngine : Bool)
    (resp : EngResp M) (k : Nat) :
    (web_make_move re g m hasEngine resp k).1.lastEngineHint = g.lastEngineHint := by
  unfold web_make_move
  dsimp only
  split
  · split
    · rfl
    · split
      · split
        · split
          · split
            · rfl
            · rfl
          · rfl
        · rfl
      · rfl
  · rfl

/-- C9: the SAN history and the board's move stack stay in lockstep:
a fresh `ChessGame` starts with both empty, and `make_move` and
`undo_move` each preserve equality of their lengths. -/
theorem C9_history_board_in_sync {P M : Type} [DecidableEq M]
    (re : RulesEngine P M) (mode : String) (hasEngine : Bool) :
    ((ChessGame.init mode hasEngine : ChessGame P M).move_history.length =
      (ChessGame.init mode hasEngine : ChessGame P M).stack.length) ∧
    (∀ (g : ChessGame P M) (m : M),
      g.move_history.length = g.stack.length →
      (ChessGame.make_move re g m).1.move_history.length =
        (ChessGame.make_move re g m).1.stack.length) ∧
    (∀ g : ChessGame P M,
      g.move_history.length = g.stack.length →
      (ChessGame.undo_move g).1.move_history.length =
        (ChessGame.undo_move g).1.stack.length) := by
  refine ⟨rfl, ?_, ?_⟩
  · intro g m hg
    unfold ChessGame.make_move
    by_cases hm : m ∈ re.legalMoves (boardPos re g.stack)
    · rw [if_pos hm]
      cases hs : re.san (boardPos re g.stack) m with
      | some s =>
        simp only [List.length_append, List.length_cons, List.length_nil]
        omega
      | none => exact hg
    · rw [if_neg hm]
      exact hg
  · intro g hg
    unfold ChessGame.undo_move
    by_cases he : g.stack.isEmpty = true
    · rw [if_pos he]
      exact hg
    · rw [if_neg he]
      have h1 : g.stack ≠ [] := by
        intro h
        rw [h] at he
        simp at he
      have h2 : 0 < g.stack.length := List.length_pos.mpr h1
      have h3 : g.move_history.isEmpty = false := by
        cases hmh : g.move_history with
        | nil =>
          rw [hmh] at hg
          simp at hg
          omega
        | cons a l => simp
      rw [h3]
      simp only [Bool.false_eq_true, if_false, List.length_dropLast]
      omega

/-- Witness for C9: undoing one move on a concrete one-move game keeps
the history and the board stack the same length. -/
theorem C9_history_board_in_sync_witness :
    (ChessGame.undo_move
      (⟨[0], "Play", true, 3, true, "0.0", none, [], ["0"]⟩ :
        ChessGame (List Nat) Nat)).1.move_history.length =
    (ChessGame.undo_move
      (⟨[0], "Play", true, 3, true, "0.0", none, [], ["0"]⟩ :
        ChessGame (List Nat) Nat)).1.stack.length :=
  (C9_history_board_in_sync toyRules "Play" true).2.2 _ (by decide)

/-- The first component of the `/api/undo` handler's reply, split on
the mode test, for rewriting. -/
theorem web_undo_fst {P M : Type} (re : RulesEngine P M) (g : WebSession P M) :
    (web_undo re g).1 =
      if (g.mode == "Play") = true then popOnce (popOnce g) else popOnce g := rfl

/-- One pop block does nothing when the board stack is empty. -/
theorem popOnce_empty {P M : Type} (g : WebSession P M) (h : g.stack = []) :
    popOnce g = g := by
  unfold popOnce
  rw [if_pos (by simp [h])]

/-- One pop block with nonempty stack and nonempty history pops the
last element of both. -/
theorem popOnce_nonempty {P M : Type} (g : WebSession P M) (hs : g.stack ≠ [])
    (hh : g.moveHistory ≠ []) :
    popOnce g = { g with stack := g.stack.dropLast,
                         moveHistory := g.moveHistory.dropLast } := by
  unfold popOnce
  rw [if_neg (by simp [hs]), if_neg (by simp [hh])]

/-- C3: for a session whose history and board stack agree in length
(the invariant of every session reachable through the handlers),
`/api/undo` pops exactly two history entries in `Play` mode when at
least two moves exist, one when exactly one exists, exactly one in
every other mode, is a no-op on an empty history, and always answers
200 — no error branch exists. -/
theorem C3_undo_pops {P M : Type} (re : RulesEngine P M) (g : WebSession P M)
    (hlen : g.moveHistory.length = g.stack.length) :
    (g.mode = "Play" → 2 ≤ g.stack.length →
      (web_undo re g).1.moveHistory = g.moveHistory.dropLast.dropLast ∧
      (web_undo re g).1.stack = g.stack.dropLast.dropLast) ∧
    (g.mode = "Play" → g.stack.length = 1 →
      (web_undo re g).1.moveHistory = g.moveHistory.dropLast ∧
      (web_undo re g).1.stack = g.stack.dropLast) ∧
    (g.mode ≠ "Play" →
      (web_undo re g).1.moveHistory = g.moveHistory.dropLast ∧
      (web_undo re g).1.stack = g.stack.dropLast) ∧
    (g.stack.length = 0 → (web_undo re g).1 = g) ∧
    (web_undo re g).2 = .ok (stateOf re (web_undo re g).1) := by
  refine ⟨?_, ?_, ?_, ?_, rfl⟩
  · intro hmode h2
    rw [web_undo_fst, if_pos (by simp [hmode])]
    have hs : g.stack ≠ [] := by
      intro h
      rw [h] at h2
      simp at h2
    have hh : g.moveHistory ≠ [] := by
      intro h
      rw [h] at hlen
      simp at hlen
      omega
    rw [popOnce_nonempty g hs hh]
    have hs1 : g.stack.dropLast ≠ [] := by
      have : 0 < g.stack.dropLast.length := by
        simp [List.length_dropLast]
        omega
      exact List.length_pos.mp this
    have hh1 : g.moveHistory.dropLast ≠ [] := by
      have : 0 < g.moveHistory.dropLast.length := by
        simp [List.length_dropLast]
        omega
      exact List.length_pos.mp this
    rw [popOnce_nonempty _ hs1 hh1]
    exact ⟨rfl, rfl⟩
  · intro hmode h1
    rw [web_undo_fst, if_pos (by simp [hmode])]
    have hs : g.stack ≠ [] := by
      intro h
      rw [h] at h1
      simp at h1
    have hh : g.moveHistory ≠ [] := by
      intro h
      rw [h] at hlen
      simp at hlen
      omega
    rw [popOnce_nonempty g hs hh]
    have hnil : g.stack.dropLast = [] := by
      apply List.eq_nil_of_length_eq_zero
      simp [List.length_dropLast]
      omega
    rw [popOnce_empty _ hnil]
    exact ⟨rfl, rfl⟩
  · intro hmode
    rw [web_undo_fst, if_neg (by simp [hmode])]
    by_cases hs : g.stack = []
    · have hh : g.moveHistory = [] := by
        apply List.eq_nil_of_length_eq_zero
        rw [hlen, hs]
        rfl
      rw [popOnce_empty g hs, hs, hh]
      simp
    · have hh : g.moveHistory ≠ [] := by
        intro h
        rw [h] at hlen
        simp at hlen
        exact hs (List.eq_nil_of_length_eq_zero hlen.symm)
      rw [popOnce_nonempty g hs hh]
      exact ⟨rfl, rfl⟩
  · intro h0
    have hs : g.stack = [] := List.eq_nil_of_length_eq_zero h0
    rw [web_undo_fst]
    by_cases hmode : (g.mode == "Play") = true
    · rw [if_pos hmode, popOnce_empty g hs, popOnce_empty g hs]
    · rw [if_neg hmode, popOnce_empty g hs]

/-- Witness for C3: a concrete `Play` session with two moves loses
exactly its last two history entries. -/
theorem C3_undo_pops_witness :
    (web_undo toyRules
      (⟨[0, 1], "Play", true, 3, true, ["0", "1"], none⟩ :
        WebSession (List Nat) Nat)).1.moveHistory =
      (["0", "1"].dropLast).dropLast ∧
    (web_undo toyRules
      (⟨[0, 1], "Play", true, 3, true, ["0", "1"], none⟩ :
        WebSession (List Nat) Nat)).1.stack = (([0, 1] : List Nat).dropLast).dropLast :=
  (C3_undo_pops toyRules _ (by decide)).1 rfl (by decide)

/-- C6 (refuted as stated): the web handler stores a clamped difficulty
but sends no engine reconfiguration at all, and `ChessGame`'s
`set_difficulty` sends one but stores the level without clamping —
level 7 is stored as 7, outside `[1, 4]`. -/
theorem C6_counterexample_no_clamp_no_forward :
    (web_set_difficulty
      (⟨[], "Play", true, 3, true, [], none⟩ : WebSession (List Nat) Nat) 9).2.1 =
      [] ∧
    (ChessGame.set_difficulty
      (⟨[], "Play", true, 3, true, "0.0", none, [], []⟩ : ChessGame (List Nat) Nat)
      7 false).1.difficulty_level = 7 ∧
    ¬((7 : Int) ≤ 4) := by
  refine ⟨rfl, rfl, by norm_num⟩

/-- C6 (amended): the `/api/set_difficulty` handler clamps the level to
`[1, 4]`, stores it and acknowledges it, but issues no engine command;
`ChessGame.set_difficulty` stores the given level unclamped and, when
an engine is bound, issues one best-effort skill configuration command
whose failure is ignored (the outcome does not depend on it). -/
theorem C6_amended_difficulty_behaviour {P M : Type} (g : WebSession P M)
    (d : Int) (g2 : ChessGame P M) (level : Int) (cfgFails : Bool) :
    (web_set_difficulty g d).1.difficulty = max 1 (min 4 d) ∧
    1 ≤ (web_set_difficulty g d).1.difficulty ∧
    (web_set_difficulty g d).1.difficulty ≤ 4 ∧
    (web_set_difficulty g d).2.1 = [] ∧
    (web_set_difficulty g d).2.2 = .ok (max 1 (min 4 d)) ∧
    (ChessGame.set_difficulty g2 level cfgFails).1.difficulty_level = level ∧
    ChessGame.set_difficulty g2 level cfgFails =
      ChessGame.set_difficulty g2 level true ∧
    (g2.hasEngine = true →
      (ChessGame.set_difficulty g2 level cfgFails).2 =
        [.configureSkill (skillLevelFor level)]) ∧
    (g2.hasEngine = false → (ChessGame.set_difficulty g2 level cfgFails).2 = []) := by
  refine ⟨rfl, le_max_left 1 _, max_le (by norm_num) (min_le_left 4 d), rfl, rfl,
    ?_, ?_, ?_, ?_⟩
  · unfold ChessGame.set_difficulty
    cases hb : g2.hasEngine <;> cases cfgFails <;> rfl
  · unfold ChessGame.set_difficulty
    cases hb : g2.hasEngine <;> cases cfgFails <;> rfl
  · intro hb
    unfold ChessGame.set_difficulty
    rw [hb]
    cases cfgFails <;> rfl
  · intro hb
    unfold ChessGame.set_difficulty
    rw [hb]
    cases cfgFails <;> rfl

/-- Witness for the amended C6: with an engine bound, level 7 stores 7
and issues the default skill command; the web handler clamps 9 to 4
with no commands. -/
theorem C6_amended_difficulty_behaviour_witness :
    (ChessGame.set_difficulty
      (⟨[], "Play", true, 3, true, "0.0", none, [], []⟩ : ChessGame (List Nat) Nat)
      7 false).2 = [.configureSkill 10] :=
  (C6_amended_difficulty_behaviour
    (⟨[], "Play", true, 3, true, [], none⟩ : WebSession (List Nat) Nat) 9
    (⟨[], "Play", true, 3, true, "0.0", none, [], []⟩ : ChessGame (List Nat) Nat)
    7 false).2.2.2.2.2.2.2.1 rfl

end ChessLearning
